import Mathlib

/-!
Shallow embedding of `dbn_upper_bound/python/utility.py`.

Python floats and complexes are modelled by `ℝ` and `ℂ`; `cmath.exp`,
`cmath.log`, `cmath.cos`, `cmath.sqrt` by `Complex.exp`, `Complex.log`,
`Complex.cos` and the principal-branch power `Complex.cpow`.  The external
adaptive quadrature routine `scipy.integrate.quad` (an external collaborator:
it receives a real-valued integrand and the interval endpoints and returns a
pair of the integral estimate and an absolute-error estimate) is modelled by
an arbitrary function `quad : (ℝ → ℝ) → ℝ → ℝ → ℝ × ℝ`; every structural
theorem below holds for every such routine.  Python's string-sentinel error
reporting (`return "error"`) is modelled with `Except String`.
-/

open scoped Real ComplexConjugate

/-- Modelled from the spec: the module `dbn_upper_bound.python.constants`
(not present in the sources) supplies the process-wide constant `PI`,
the real scalar π. -/
noncomputable def PI : ℝ := Real.pi

/-- Modelled from the spec: the module `dbn_upper_bound.python.constants`
(not present in the sources) supplies the process-wide constant `PI_sq`,
the real scalar π². -/
noncomputable def PI_sq : ℝ := Real.pi ^ 2

/-- Python `phi_decay(u, n_max=100)`: the loop
`for n in range(1, n_max+1): running_sum += term1*term2` with
`term1 = 2*PI_sq*pow(n,4)*exp(9*u) - 3*PI*pow(n,2)*exp(5*u)` and
`term2 = exp(-1*PI*pow(n,2)*exp(4*u))`, over `cmath` arithmetic. -/
noncomputable def phi_decay (u : ℂ) (n_max : ℕ) : ℂ :=
  (List.range n_max).foldl
    (fun running_sum k =>
      running_sum +
        (2 * (PI_sq : ℂ) * ((k + 1 : ℕ) : ℂ) ^ 4 * Complex.exp (9 * u) -
            3 * (PI : ℂ) * ((k + 1 : ℕ) : ℂ) ^ 2 * Complex.exp (5 * u)) *
          Complex.exp (-1 * (PI : ℂ) * ((k + 1 : ℕ) : ℂ) ^ 2 * Complex.exp (4 * u)))
    0

/-- The `n`-th term of the `phi_decay` series at real argument `u`,
as a real number. -/
noncomputable def phi_decay_term (u : ℝ) (n : ℕ) : ℝ :=
  (2 * Real.pi ^ 2 * (n : ℝ) ^ 4 * Real.exp (9 * u) -
      3 * Real.pi * (n : ℝ) ^ 2 * Real.exp (5 * u)) *
    Real.exp (-(Real.pi * (n : ℝ) ^ 2 * Real.exp (4 * u)))

/-- The type of the external adaptive quadrature collaborator
(`scipy.integrate.quad`): it takes a real-valued integrand and the two
interval endpoints and returns the pair (integral estimate, absolute error
estimate).  Every structural theorem below holds for an arbitrary routine of
this type. -/
abbrev QuadRoutine := (ℝ → ℝ) → ℝ → ℝ → ℝ × ℝ

/-- A trivial concrete quadrature routine, used to instantiate witnesses. -/
def quadTriv : QuadRoutine := fun f a b => (f a + f b, 0)

/-- Python `Nt(t, T)`: `T_by_4PI*log(T_by_4PI) - T_by_4PI + (t/16.0)*log(T_by_4PI)`
with `T_by_4PI = T/(4*PI)` and `cmath.log`. -/
noncomputable def Nt (t T : ℝ) : ℂ :=
  ((T / (4 * PI) : ℝ) : ℂ) * Complex.log ((T / (4 * PI) : ℝ) : ℂ) -
    ((T / (4 * PI) : ℝ) : ℂ) +
    ((t / 16 : ℝ) : ℂ) * Complex.log ((T / (4 * PI) : ℝ) : ℂ)

/-- Python `Ht_complex_integrand(u, z, t) = exp(t*u*u)*phi_decay(u)*cos(z*u)`
(with `phi_decay`'s default `n_max = 100`). -/
noncomputable def Ht_complex_integrand (u z t : ℂ) : ℂ :=
  Complex.exp (t * u * u) * phi_decay u 100 * Complex.cos (z * u)

/-- Python `Ht_complex(z, t)`: quadratures of the real and the imaginary part of the
integrand over `[0, 10]`, assembled as
`(real_part[0] + 1j*imag_part[0], real_part[1], imag_part[1])`. -/
noncomputable def Ht_complex (quad : QuadRoutine) (z t : ℂ) : ℂ × ℝ × ℝ :=
  let real_part := quad (fun a => (Ht_complex_integrand (a : ℂ) z t).re) 0 10
  let imag_part := quad (fun a => (Ht_complex_integrand (a : ℂ) z t).im) 0 10
  (((real_part.1 : ℝ) : ℂ) + Complex.I * ((imag_part.1 : ℝ) : ℂ), real_part.2, imag_part.2)

/-- Python `Ht_complex_zlarge(z, t)`: the closed-form large-`z` approximation.
`float(scipy.real(z))`, `float(scipy.imag(z))` and `float(t)` force `x`, `y`,
`t` real; `cmath.log`/`cmath.sqrt` and Python's `pow` on a possibly negative
real base are the principal-branch complex functions, so `sqrt w` is modelled
as `w ^ (1/2 : ℂ)` and `pow(a, e)` as `(a : ℂ) ^ (e : ℂ)` (`Complex.cpow`). -/
noncomputable def Ht_complex_zlarge (z : ℂ) (t : ℝ) : ℂ × ℝ × ℂ :=
  let x : ℝ := z.re
  let y : ℝ := z.im
  let x_by_4PI : ℝ := x / (4 * PI)
  let B : ℂ := ((PI * t / 16 + x / 4 : ℝ) : ℂ) * Complex.log ((x_by_4PI : ℝ) : ℂ) -
    ((x / 4 : ℝ) : ℂ) + ((PI * (9 + y) / 8 : ℝ) : ℂ)
  let A1 : ℂ := ((PI_sq : ℝ) : ℂ) * ((PI : ℂ) / (2 * Complex.I * (x : ℂ))) ^ ((1 : ℂ) / 2) *
    ((x_by_4PI : ℝ) : ℂ) ^ (((9 + y) / 4 : ℝ) : ℂ)
  let A2 : ℂ := Complex.exp ((-1 * PI * x / 8 : ℝ) : ℂ)
  let A3 : ℂ := Complex.exp (((t / 16 : ℝ) : ℂ) * Complex.log ((x_by_4PI : ℝ) : ℂ) ^ (2 : ℕ) -
    ((t * PI_sq / 64 : ℝ) : ℂ))
  let Ht_without_PIby8_amplitude : ℂ := A1 * A3 * Complex.exp (-Complex.I * B)
  let Ht : ℂ := Ht_without_PIby8_amplitude * A2
  (Ht, Complex.abs Ht, Ht_without_PIby8_amplitude)

/-- Python `Ht_real_integrand(u, z, t)`: rejects any input with a nonzero imaginary
component (Python prints a message and returns the sentinel string
`"error"`, modelled as `Except.error "error"`); otherwise projects `u`, `z`,
`t` to their real parts and returns
`scipy.real(exp(t*u*u)*phi_decay(u)*cos(z*u))`. -/
noncomputable def Ht_real_integrand (u z t : ℂ) : Except String ℝ :=
  if |z.im| > 0 ∨ |t.im| > 0 ∨ |u.im| > 0 then
    Except.error "error"
  else
    Except.ok ((Complex.exp ((t.re : ℂ) * (u.re : ℂ) * (u.re : ℂ)) *
      phi_decay ((u.re : ℝ) : ℂ) 100 * Complex.cos ((z.re : ℂ) * (u.re : ℂ))).re)

/-- Glue between the dynamically-typed Python integrand and the quadrature
routine's real-valued integrand type: the value carried by `Except.ok`, and an
arbitrary default in the `Except.error` case (which is unreachable when called
from `Ht_real`; see the unreachability theorem below). -/
def quadIntegrandValue : Except String ℝ → ℝ
  | Except.ok v => v
  | Except.error _ => 0

/-- Python `Ht_real(z, t)`: rejects `z` or `t` with a nonzero imaginary component
(sentinel `"error"`), otherwise projects both to their real parts and
integrates `Ht_real_integrand` over `[0, 10]`, returning `quad`'s
(value, error) pair. -/
noncomputable def Ht_real (quad : QuadRoutine) (z t : ℂ) : Except String (ℝ × ℝ) :=
  if |z.im| > 0 ∨ |t.im| > 0 then
    Except.error "error"
  else
    Except.ok (quad
      (fun u => quadIntegrandValue (Ht_real_integrand ((u : ℝ) : ℂ) ((z.re : ℝ) : ℂ) ((t.re : ℝ) : ℂ)))
      0 10)

/-- Python `Ittheta_scaled_by_exp_z_pi_by_8(b, beta, t, theta=0)`: quadratures over
`v ∈ [0, 10]` of the real and imaginary parts of
`exp(t*(v+1j*theta)**2 - beta*exp(4*(v+1j*theta)) + 1j*b*(v+1j*theta) + PI*Re(b)/8)`,
combined as `real_part[0] + 1j*imag_part[0]` (error estimates discarded). -/
noncomputable def Ittheta_scaled_by_exp_z_pi_by_8 (quad : QuadRoutine) (b beta t : ℂ)
    (theta : ℝ) : ℂ :=
  let integrand : ℝ → ℂ := fun v =>
    Complex.exp (t * ((v : ℂ) + Complex.I * (theta : ℂ)) * ((v : ℂ) + Complex.I * (theta : ℂ)) -
      beta * Complex.exp (4 * ((v : ℂ) + Complex.I * (theta : ℂ))) +
      Complex.I * b * ((v : ℂ) + Complex.I * (theta : ℂ)) + ((PI * b.re / 8 : ℝ) : ℂ))
  let real_part := quad (fun v => (integrand v).re) 0 10
  let imag_part := quad (fun v => (integrand v).im) 0 10
  ((real_part.1 : ℝ) : ℂ) + Complex.I * ((imag_part.1 : ℝ) : ℂ)

/-- Python `Kttheta_scaled_by_exp_z_pi_by_8(z, t, n=5)`: sets
`theta = PI/8 - 1/(4*scipy.real(z))`, then the loop `for n in range(1,5)`
accumulates `2*PI_sq*n*n*n*n*Ittheta(z-9j, PI*n*n, t, theta)
- 3*PI*n*n*Ittheta(z-5j, PI*n*n, t, theta)`; the parameter `n` is shadowed by
the loop variable and never read. -/
noncomputable def Kttheta_scaled_by_exp_z_pi_by_8 (quad : QuadRoutine) (z t : ℂ)
    (n : ℕ) : ℂ :=
  let theta : ℝ := PI / 8 - 1 / (4 * z.re)
  (List.range 4).foldl
    (fun running_sum k =>
      running_sum +
        (2 * (PI_sq : ℂ) * ((k + 1 : ℕ) : ℂ) * ((k + 1 : ℕ) : ℂ) * ((k + 1 : ℕ) : ℂ) *
            ((k + 1 : ℕ) : ℂ) *
            Ittheta_scaled_by_exp_z_pi_by_8 quad (z - 9 * Complex.I)
              ((PI : ℂ) * ((k + 1 : ℕ) : ℂ) * ((k + 1 : ℕ) : ℂ)) t theta -
          3 * (PI : ℂ) * ((k + 1 : ℕ) : ℂ) * ((k + 1 : ℕ) : ℂ) *
            Ittheta_scaled_by_exp_z_pi_by_8 quad (z - 5 * Complex.I)
              ((PI : ℂ) * ((k + 1 : ℕ) : ℂ) * ((k + 1 : ℕ) : ℂ)) t theta))
    0

/-- Python `Ht_large_scaled_by_exp_z_pi_by_8(z, t)` equals
0.5*(Kttheta(z, t) + conj(Kttheta(conj(z), t)))`, `Kttheta` called with its
default `n = 5`. -/
noncomputable def Ht_large_scaled_by_exp_z_pi_by_8 (quad : QuadRoutine) (z t : ℂ) : ℂ :=
  ((0.5 : ℝ) : ℂ) *
    (Kttheta_scaled_by_exp_z_pi_by_8 quad z t 5 +
      conj (Kttheta_scaled_by_exp_z_pi_by_8 quad (conj z) t 5))

lemma phi_decay_succ (u : ℂ) (n : ℕ) :
    phi_decay u (n + 1) =
      phi_decay u n +
        (2 * (PI_sq : ℂ) * ((n + 1 : ℕ) : ℂ) ^ 4 * Complex.exp (9 * u) -
            3 * (PI : ℂ) * ((n + 1 : ℕ) : ℂ) ^ 2 * Complex.exp (5 * u)) *
          Complex.exp (-1 * (PI : ℂ) * ((n + 1 : ℕ) : ℂ) ^ 2 * Complex.exp (4 * u)) := by
  simp [phi_decay, List.range_succ]

lemma phi_decay_term_cast (u : ℝ) (n : ℕ) :
    (2 * (PI_sq : ℂ) * (n : ℂ) ^ 4 * Complex.exp (9 * (u : ℂ)) -
        3 * (PI : ℂ) * (n : ℂ) ^ 2 * Complex.exp (5 * (u : ℂ))) *
      Complex.exp (-1 * (PI : ℂ) * (n : ℂ) ^ 2 * Complex.exp (4 * (u : ℂ))) =
    ((phi_decay_term u n : ℝ) : ℂ) := by
  have h9 : Complex.exp (9 * (u : ℂ)) = ((Real.exp (9 * u) : ℝ) : ℂ) := by
    push_cast; ring
  have h5 : Complex.exp (5 * (u : ℂ)) = ((Real.exp (5 * u) : ℝ) : ℂ) := by
    push_cast; ring
  have h4 : Complex.exp (4 * (u : ℂ)) = ((Real.exp (4 * u) : ℝ) : ℂ) := by
    push_cast; ring
  rw [h9, h5, h4]
  have h2 : -1 * (PI : ℂ) * (n : ℂ) ^ 2 * ((Real.exp (4 * u) : ℝ) : ℂ) =
      ((-(Real.pi * (n : ℝ) ^ 2 * Real.exp (4 * u)) : ℝ) : ℂ) := by
    unfold PI; push_cast; ring
  rw [h2, ← Complex.ofReal_exp]
  unfold phi_decay_term PI PI_sq
  push_cast
  ring

lemma phi_decay_real (u : ℝ) (n_max : ℕ) :
    phi_decay (u : ℂ) n_max = ((∑ n in Finset.Icc 1 n_max, phi_decay_term u n : ℝ) : ℂ) := by
  induction n_max with
  | zero => simp [phi_decay]
  | succ n ih =>
      rw [phi_decay_succ, ih, phi_decay_term_cast,
        Finset.sum_Icc_succ_top (Nat.one_le_iff_ne_zero.mpr (Nat.succ_ne_zero n))]
      push_cast
      ring

/-- C1: For every real `u` and positive `n_max`, `phi_decay u n_max` is the
sum over `n = 1, …, n_max` of
`(2π²n⁴·exp(9u) − 3πn²·exp(5u)) · exp(−πn²·exp(4u))`. -/
theorem phi_decay_is_series_sum (u : ℝ) (n_max : ℕ) (h : 0 < n_max) :
    phi_decay (u : ℂ) n_max =
      ((∑ n in Finset.Icc 1 n_max,
          (2 * Real.pi ^ 2 * (n : ℝ) ^ 4 * Real.exp (9 * u) -
              3 * Real.pi * (n : ℝ) ^ 2 * Real.exp (5 * u)) *
            Real.exp (-(Real.pi * (n : ℝ) ^ 2 * Real.exp (4 * u))) : ℝ) : ℂ) :=
  phi_decay_real u n_max

/-- C7: `Ht_complex` returns the triple whose first element is assembled from
the two independent quadratures of the real and imaginary parts of the
integrand over `[0, 10]`, and whose second and third elements are exactly the
error estimates of the real-part and imaginary-part quadrature calls. -/
theorem Ht_complex_triple_structure (quad : QuadRoutine) (z t : ℂ) :
    (Ht_complex quad z t).1 =
        (((quad (fun u => (Ht_complex_integrand (u : ℂ) z t).re) 0 10).1 : ℝ) : ℂ) +
          Complex.I * (((quad (fun u => (Ht_complex_integrand (u : ℂ) z t).im) 0 10).1 : ℝ) : ℂ) ∧
      (Ht_complex quad z t).2.1 =
        (quad (fun u => (Ht_complex_integrand (u : ℂ) z t).re) 0 10).2 ∧
      (Ht_complex quad z t).2.2 =
        (quad (fun u => (Ht_complex_integrand (u : ℂ) z t).im) 0 10).2 :=
  ⟨rfl, rfl, rfl⟩

/-- C8: in the triple returned by `Ht_complex_zlarge`, the second element is
exactly `abs` of the first, and the first equals the third (the amplitude-only
partial product) multiplied by `exp(-πx/8)` (written `exp(-1*PI*x/8)` in the
source). -/
theorem Ht_complex_zlarge_consistency (z : ℂ) (t : ℝ) :
    (Ht_complex_zlarge z t).2.1 = Complex.abs (Ht_complex_zlarge z t).1 ∧
      (Ht_complex_zlarge z t).1 =
        (Ht_complex_zlarge z t).2.2 * Complex.exp ((-1 * PI * z.re / 8 : ℝ) : ℂ) :=
  ⟨rfl, rfl⟩

/-- C9: for `T > 0`, `Nt t T` is the real value
`(T/4π)·log(T/4π) − T/4π + (t/16)·log(T/4π)`, with zero imaginary part. -/
theorem Nt_real_closed_form (t T : ℝ) (hT : 0 < T) :
    Nt t T =
        ((T / (4 * Real.pi) * Real.log (T / (4 * Real.pi)) - T / (4 * Real.pi) +
            t / 16 * Real.log (T / (4 * Real.pi)) : ℝ) : ℂ) ∧
      (Nt t T).im = 0 := by
  have hpos : (0 : ℝ) ≤ T / (4 * Real.pi) := div_nonneg hT.le (by positivity)
  have hlog : Complex.log ((T / (4 * PI) : ℝ) : ℂ) =
      ((Real.log (T / (4 * Real.pi)) : ℝ) : ℂ) := by
    rw [PI, ← Complex.ofReal_log hpos]
  have key : Nt t T =
      ((T / (4 * Real.pi) * Real.log (T / (4 * Real.pi)) - T / (4 * Real.pi) +
          t / 16 * Real.log (T / (4 * Real.pi)) : ℝ) : ℂ) := by
    unfold Nt
    rw [hlog, PI]
    push_cast
    ring
  exact ⟨key, by rw [key, Complex.ofReal_im]⟩

/-- Witness for C9 at `t = 0`, `T = 1`. -/
theorem Nt_real_closed_form_witness :
    (0 : ℝ) < 1 ∧
      (Nt 0 1 =
          ((1 / (4 * Real.pi) * Real.log (1 / (4 * Real.pi)) - 1 / (4 * Real.pi) +
              0 / 16 * Real.log (1 / (4 * Real.pi)) : ℝ) : ℂ) ∧
        (Nt 0 1).im = 0) :=
  ⟨one_pos, Nt_real_closed_form 0 1 one_pos⟩

/-- C3: `Ht_large_scaled_by_exp_z_pi_by_8 z t` is the Hermitian
symmetrization `0.5·(K(z,t) + conj(K(conj z, t)))` of
`Kttheta_scaled_by_exp_z_pi_by_8` (called with its default `n = 5`), and
consequently has zero imaginary part whenever `z` is purely real. -/
theorem Ht_large_hermitian_symmetrization (quad : QuadRoutine) (z t : ℂ) :
    Ht_large_scaled_by_exp_z_pi_by_8 quad z t =
        ((0.5 : ℝ) : ℂ) * (Kttheta_scaled_by_exp_z_pi_by_8 quad z t 5 +
          conj (Kttheta_scaled_by_exp_z_pi_by_8 quad (conj z) t 5)) ∧
      (z.im = 0 → (Ht_large_scaled_by_exp_z_pi_by_8 quad z t).im = 0) := by
  refine ⟨rfl, fun hz => ?_⟩
  have hc : conj z = z := Complex.conj_eq_iff_im.mpr hz
  unfold Ht_large_scaled_by_exp_z_pi_by_8
  rw [hc]
  simp [Complex.mul_im, Complex.add_im, Complex.conj_im]

/-- Witness for C3 at `z = 0`, `t = 0`, with the trivial quadrature. -/
theorem Ht_large_hermitian_symmetrization_witness :
    (Ht_large_scaled_by_exp_z_pi_by_8 quadTriv (0 : ℂ) 0).im = 0 :=
  (Ht_large_hermitian_symmetrization quadTriv 0 0).2 (by simp)

/-- C4: `Ht_real` (resp. `Ht_real_integrand`) signals the domain error
`"error"` exactly when some imaginary component of its inputs is nonzero, and
returns a numeric `Except.ok` value on purely real inputs. -/
theorem Ht_real_domain_error (quad : QuadRoutine) (u z t : ℂ) :
    ((z.im ≠ 0 ∨ t.im ≠ 0) → Ht_real quad z t = Except.error "error") ∧
      ((z.im ≠ 0 ∨ t.im ≠ 0 ∨ u.im ≠ 0) →
        Ht_real_integrand u z t = Except.error "error") ∧
      (z.im = 0 → t.im = 0 → ∃ p, Ht_real quad z t = Except.ok p) ∧
      (u.im = 0 → z.im = 0 → t.im = 0 → ∃ v, Ht_real_integrand u z t = Except.ok v) := by
  refine ⟨fun h => ?_, fun h => ?_, fun hz ht => ?_, fun hu hz ht => ?_⟩
  · unfold Ht_real
    rw [if_pos]
    rcases h with h | h
    · exact Or.inl (abs_pos.mpr h)
    · exact Or.inr (abs_pos.mpr h)
  · unfold Ht_real_integrand
    rw [if_pos]
    rcases h with h | h | h
    · exact Or.inl (abs_pos.mpr h)
    · exact Or.inr (Or.inl (abs_pos.mpr h))
    · exact Or.inr (Or.inr (abs_pos.mpr h))
  · exact ⟨_, by unfold Ht_real; rw [if_neg (by simp [hz, ht])]⟩
  · exact ⟨_, by unfold Ht_real_integrand; rw [if_neg (by simp [hu, hz, ht])]⟩

/-- Witness for C4 at `z = I` (nonzero imaginary part). -/
theorem Ht_real_domain_error_witness :
    Ht_real quadTriv Complex.I 0 = Except.error "error" :=
  (Ht_real_domain_error quadTriv Complex.I Complex.I 0).1 (Or.inl (by simp))

/-- C10: for the purely real arguments that `Ht_real` hands to the quadrature
routine (a real integration variable and the real projections of `z` and
`t`), the domain-error branch of `Ht_real_integrand` is unreachable: the
integrand always yields `Except.ok`, and the value handed to the quadrature
is that numeric value, never the error sentinel. -/
theorem Ht_real_integrand_error_branch_unreachable (u zr tr : ℝ) :
    ∃ v : ℝ,
      Ht_real_integrand ((u : ℝ) : ℂ) ((zr : ℝ) : ℂ) ((tr : ℝ) : ℂ) = Except.ok v ∧
        quadIntegrandValue
          (Ht_real_integrand ((u : ℝ) : ℂ) ((zr : ℝ) : ℂ) ((tr : ℝ) : ℂ)) = v := by
  have hok : Ht_real_integrand ((u : ℝ) : ℂ) ((zr : ℝ) : ℂ) ((tr : ℝ) : ℂ) =
      Except.ok ((Complex.exp ((tr : ℂ) * (u : ℂ) * (u : ℂ)) *
        phi_decay ((u : ℝ) : ℂ) 100 * Complex.cos ((zr : ℂ) * (u : ℂ))).re) := by
    unfold Ht_real_integrand
    rw [if_neg (by simp)]
    simp
  exact ⟨_, hok, by rw [hok]; rfl⟩

/-- C6: for purely real `z` and `t`, `Ht_real` succeeds and its value agrees
exactly with the real part of the complex value returned by `Ht_complex`,
both being the same quadrature of the same real-valued restriction of the
integrand over `[0, 10]`. -/
theorem Ht_real_agrees_with_Ht_complex_re (quad : QuadRoutine) (z t : ℂ)
    (hz : z.im = 0) (ht : t.im = 0) :
    ∃ p : ℝ × ℝ, Ht_real quad z t = Except.ok p ∧ p.1 = (Ht_complex quad z t).1.re := by
  have hzr : ((z.re : ℝ) : ℂ) = z := Complex.ext (by simp) (by simp [hz])
  have htr : ((t.re : ℝ) : ℂ) = t := Complex.ext (by simp) (by simp [ht])
  have hfun : (fun u : ℝ => quadIntegrandValue
        (Ht_real_integrand ((u : ℝ) : ℂ) ((z.re : ℝ) : ℂ) ((t.re : ℝ) : ℂ))) =
      fun u : ℝ => (Ht_complex_integrand ((u : ℝ) : ℂ) z t).re := by
    funext u
    unfold Ht_real_integrand
    rw [if_neg (by simp)]
    simp [quadIntegrandValue, Ht_complex_integrand, hzr, htr]
  refine ⟨quad (fun u => (Ht_complex_integrand ((u : ℝ) : ℂ) z t).re) 0 10, ?_, ?_⟩
  · unfold Ht_real
    rw [if_neg (by simp [hz, ht]), hfun]
  · show (quad (fun u => (Ht_complex_integrand ((u : ℝ) : ℂ) z t).re) 0 10).1 =
      (Ht_complex quad z t).1.re
    unfold Ht_complex
    simp

/-- Witness for C6 at `z = 0`, `t = 0`, with the trivial quadrature. -/
theorem Ht_real_agrees_with_Ht_complex_re_witness :
    ∃ p : ℝ × ℝ, Ht_real quadTriv 0 0 = Except.ok p ∧
      p.1 = (Ht_complex quadTriv 0 0).1.re :=
  Ht_real_agrees_with_Ht_complex_re quadTriv 0 0 (by simp) (by simp)

/-- C2: `Kttheta_scaled_by_exp_z_pi_by_8 z t n` sets
`theta = π/8 − 1/(4·Re z)` and equals the sum over the loop index
`m = 1, …, 4` of `2π²m⁴·I(z−9i, πm², t, θ) − 3πm²·I(z−5i, πm², t, θ)`;
the caller-supplied parameter `n` has no effect on the result. -/
theorem Kttheta_sum_structure (quad : QuadRoutine) (z t : ℂ) (n : ℕ) :
    Kttheta_scaled_by_exp_z_pi_by_8 quad z t n =
        ∑ m in Finset.Icc (1 : ℕ) 4,
          (2 * (Real.pi : ℂ) ^ 2 * (m : ℂ) ^ 4 *
              Ittheta_scaled_by_exp_z_pi_by_8 quad (z - 9 * Complex.I)
                ((Real.pi : ℂ) * (m : ℂ) ^ 2) t (Real.pi / 8 - 1 / (4 * z.re)) -
            3 * (Real.pi : ℂ) * (m : ℂ) ^ 2 *
              Ittheta_scaled_by_exp_z_pi_by_8 quad (z - 5 * Complex.I)
                ((Real.pi : ℂ) * (m : ℂ) ^ 2) t (Real.pi / 8 - 1 / (4 * z.re))) ∧
      ∀ n' : ℕ, Kttheta_scaled_by_exp_z_pi_by_8 quad z t n =
        Kttheta_scaled_by_exp_z_pi_by_8 quad z t n' := by
  constructor
  · rw [show Finset.Icc (1 : ℕ) 4 = {1, 2, 3, 4} by decide,
      Finset.sum_insert (by decide), Finset.sum_insert (by decide),
      Finset.sum_insert (by decide), Finset.sum_singleton]
    unfold Kttheta_scaled_by_exp_z_pi_by_8
    simp only [PI, PI_sq, List.range_succ, List.range_zero, List.foldl_append,
      List.foldl_cons, List.foldl_nil, List.nil_append, List.singleton_append,
      List.cons_append]
    norm_num
    ring_nf
  · intro n'
    rfl

/-- Witness for C1 at `u = 0`, `n_max = 1`. -/
theorem phi_decay_is_series_sum_witness :
    0 < 1 ∧
      phi_decay ((0 : ℝ) : ℂ) 1 =
        ((∑ n in Finset.Icc (1 : ℕ) 1,
            (2 * Real.pi ^ 2 * (n : ℝ) ^ 4 * Real.exp (9 * 0) -
                3 * Real.pi * (n : ℝ) ^ 2 * Real.exp (5 * 0)) *
              Real.exp (-(Real.pi * (n : ℝ) ^ 2 * Real.exp (4 * 0))) : ℝ) : ℂ) :=
  ⟨Nat.one_pos, phi_decay_is_series_sum 0 1 Nat.one_pos⟩
